import Mathlib

/-!
Shallow embedding of the core of `src/main.js`: the input edge-detector
(`keydown`/`keyup` listeners over the `down` and `pressed` sets), the
per-step physics update (`update`), and the fixed-step accumulator loop
(`loop`).  Numeric values are modelled as rationals; the JS `Set` of key
codes is modelled as a `Finset String`.
-/

set_option autoImplicit false

namespace Game

/-- Key codes are opaque string identifiers (`e.code` in the source). -/
abbrev KeyCode := String

/-- World constants from `src/main.js` lines 11-15. -/
def GROUND_Y : ℚ := 400

def GRAVITY : ℚ := 1600

def STEP : ℚ := 1 / 60

def MOVE_ACCEL : ℚ := 1200

def FRICTION : ℚ := 9 / 10

/-- Input tracker state: `down` is the set of currently held codes, `pressed`
the set of codes newly pressed since the last consumption (source lines 23-24). -/
structure InputState where
  down : Finset KeyCode
  pressed : Finset KeyCode
deriving DecidableEq

/-- The initial, empty input state (both JS sets start empty). -/
def input0 : InputState := ⟨∅, ∅⟩

/-- The `keydown` listener (source lines 26-29):
`if (!down.has(e.code)) pressed.add(e.code); down.add(e.code)`. -/
def onKeyDown (s : InputState) (c : KeyCode) : InputState :=
  { down := insert c s.down
    pressed := if c ∉ s.down then insert c s.pressed else s.pressed }

/-- The `keyup` listener (source line 30): `down.delete(e.code)`. -/
def onKeyUp (s : InputState) (c : KeyCode) : InputState :=
  { s with down := s.down.erase c }

/-- A key event delivered by the browser: a down- or up-transition of a code. -/
inductive KeyEvent where
  | keydown (c : KeyCode)
  | keyup (c : KeyCode)
deriving DecidableEq

/-- Dispatch one key event to the corresponding listener. -/
def applyEvent (s : InputState) : KeyEvent → InputState
  | .keydown c => onKeyDown s c
  | .keyup c => onKeyUp s c

/-- Fold a list of key events over an input state. -/
def applyEvents (s : InputState) (l : List KeyEvent) : InputState :=
  l.foldl applyEvent s

/-- The `held` helper (source line 32): some given code is in `down`. -/
def heldAny (s : InputState) (codes : List KeyCode) : Bool :=
  codes.any fun c => decide (c ∈ s.down)

/-- The `justPressed` helper (source line 33): some given code is in `pressed`. -/
def justPressedAny (s : InputState) (codes : List KeyCode) : Bool :=
  codes.any fun c => decide (c ∈ s.pressed)

/-- The jump codes checked by `update` (source line 67). -/
def jumpCodes : List KeyCode := ["Space", "KeyW", "ArrowUp"]

/-- The controllable entity (`player`, source line 18). -/
structure Entity where
  x : ℚ
  y : ℚ
  w : ℚ
  h : ℚ
  vx : ℚ
  vy : ℚ
  onGround : Bool
deriving DecidableEq

/-- The initial player state (source line 18). -/
def player0 : Entity := { x := 100, y := 300, w := 32, h := 32, vx := 0, vy := 0, onGround := false }

/-- Horizontal control acceleration (source lines 58-61): `ax` starts at 0,
loses `MOVE_ACCEL` when a left code is held and gains it when a right code is held. -/
def controlAx (inp : InputState) : ℚ :=
  (if heldAny inp ["ArrowLeft", "KeyA"] then -MOVE_ACCEL else 0)
    + (if heldAny inp ["ArrowRight", "KeyD"] then MOVE_ACCEL else 0)

/-- Acceleration then friction (source lines 63-64):
`vx += ax * dt; vx *= FRICTION`. -/
def frictionPhase (inp : InputState) (dt : ℚ) (e : Entity) : Entity :=
  { e with vx := (e.vx + controlAx inp * dt) * FRICTION }

/-- Jump launch (source lines 66-70): when grounded and a jump code was just
pressed, kick `vy` to `-650` and leave the ground. -/
def jumpPhase (inp : InputState) (e : Entity) : Entity :=
  if e.onGround && justPressedAny inp jumpCodes then
    { e with vy := -650, onGround := false }
  else e

/-- Gravity (source line 73): `vy += GRAVITY * dt`. -/
def gravityPhase (dt : ℚ) (e : Entity) : Entity :=
  { e with vy := e.vy + GRAVITY * dt }

/-- Position integration (source lines 76-77): `x += vx*dt; y += vy*dt`. -/
def integratePhase (dt : ℚ) (e : Entity) : Entity :=
  { e with x := e.x + e.vx * dt, y := e.y + e.vy * dt }

/-- Ground collision resolution (source lines 80-84): a bare `if` with no else
branch: when penetrating, clamp to the ground line, zero the fall speed and
mark grounded; otherwise do nothing (`onGround` keeps its previous value). -/
def collidePhase (e : Entity) : Entity :=
  if e.y + e.h > GROUND_Y then
    { e with y := GROUND_Y - e.h, vy := 0, onGround := true }
  else
    e

/-- One physics step (`update`, source lines 56-85), as the source's statement
order: control/friction, jump check, gravity, integration, collision. -/
def update (inp : InputState) (dt : ℚ) (e : Entity) : Entity :=
  collidePhase (integratePhase dt (gravityPhase dt (jumpPhase inp (frictionPhase inp dt e))))

/-- Iterate physics steps of size `STEP`, one per input-state in the list. -/
def runSteps (l : List InputState) (e : Entity) : Entity :=
  l.foldl (fun a i => update i STEP a) e

/-- Whole-world state seen by the game loop: the player and the input sets. -/
structure GameState where
  player : Entity
  input : InputState
deriving DecidableEq

/-- One `update(STEP)` call inside the drain loop (source line 46): only the
player is assigned; the input sets are merely read. -/
def stepWorld (dt : ℚ) (s : GameState) : GameState :=
  { s with player := update s.input dt s.player }

/-- The `pressed.clear()` consumption point (source line 48). -/
def consume (s : GameState) : GameState :=
  { s with input := { s.input with pressed := ∅ } }

/-- The accumulator drain loop (source lines 45-49):
`while (acc >= STEP) { update(STEP); acc -= STEP; pressed.clear(); }`.
Returns the remaining accumulator, the final state, and the total number of
physics steps run (the counter `n` is ghost instrumentation). -/
def drain (acc : ℚ) (s : GameState) (n : ℕ) : ℚ × GameState × ℕ :=
  if h : STEP ≤ acc then
    drain (acc - STEP) (consume (stepWorld STEP s)) (n + 1)
  else
    (acc, s, n)
termination_by (⌊acc * 60⌋).toNat
decreasing_by
  have h60 : (acc - STEP) * 60 = acc * 60 - 1 := by
    rw [STEP]; ring
  have hfl : ⌊(acc - STEP) * 60⌋ = ⌊acc * 60⌋ - 1 := by
    rw [h60, Int.floor_sub_one]
  have hge : (1 : ℤ) ≤ ⌊acc * 60⌋ := by
    rw [Int.le_floor]
    have : (1 : ℚ) / 60 ≤ acc := by rw [← STEP]; exact h
    push_cast
    linarith
  omega

/-- Elapsed-time clamp (source line 42): `if (dt > 0.25) dt = 0.25`. -/
def clampDt (dt : ℚ) : ℚ :=
  if dt > 1 / 4 then 1 / 4 else dt

/-- One scheduler tick (source lines 39-49): clamp the elapsed time, add it to
the accumulator, and drain. -/
def tick (dt : ℚ) (acc : ℚ) (s : GameState) : ℚ × GameState × ℕ :=
  drain (acc + clampDt dt) s 0

/-- The initial whole-world state. -/
def s0 : GameState := ⟨player0, input0⟩

/-- Input with only `ArrowRight` held and nothing just-pressed. -/
def rightInput : InputState := ⟨{"ArrowRight"}, ∅⟩

/-- The §8 scenario: start at rest on the ground and apply physics steps with
`ArrowRight` continuously held. -/
def runRight : ℕ → Entity
  | 0 => { x := 100, y := GROUND_Y - 32, w := 32, h := 32, vx := 0, vy := 0, onGround := true }
  | n + 1 => update rightInput STEP (runRight n)

/-! ### Helper lemmas -/

theorem drain_of_ge {acc : ℚ} (s : GameState) (n : ℕ) (h : STEP ≤ acc) :
    drain acc s n = drain (acc - STEP) (consume (stepWorld STEP s)) (n + 1) := by
  rw [drain]
  simp [h]

theorem drain_of_lt {acc : ℚ} (s : GameState) (n : ℕ) (h : acc < STEP) :
    drain acc s n = (acc, s, n) := by
  rw [drain]
  simp [not_le.mpr h]

theorem jumpPhase_x (inp : InputState) (e : Entity) : (jumpPhase inp e).x = e.x := by
  unfold jumpPhase; split <;> rfl

theorem jumpPhase_y (inp : InputState) (e : Entity) : (jumpPhase inp e).y = e.y := by
  unfold jumpPhase; split <;> rfl

theorem jumpPhase_w (inp : InputState) (e : Entity) : (jumpPhase inp e).w = e.w := by
  unfold jumpPhase; split <;> rfl

theorem jumpPhase_h (inp : InputState) (e : Entity) : (jumpPhase inp e).h = e.h := by
  unfold jumpPhase; split <;> rfl

theorem jumpPhase_vx (inp : InputState) (e : Entity) : (jumpPhase inp e).vx = e.vx := by
  unfold jumpPhase; split <;> rfl

theorem collidePhase_x (e : Entity) : (collidePhase e).x = e.x := by
  unfold collidePhase; split <;> rfl

theorem collidePhase_w (e : Entity) : (collidePhase e).w = e.w := by
  unfold collidePhase; split <;> rfl

theorem collidePhase_h (e : Entity) : (collidePhase e).h = e.h := by
  unfold collidePhase; split <;> rfl

theorem collidePhase_vx (e : Entity) : (collidePhase e).vx = e.vx := by
  unfold collidePhase; split <;> rfl

theorem update_vx (inp : InputState) (dt : ℚ) (e : Entity) :
    (update inp dt e).vx = (e.vx + controlAx inp * dt) * FRICTION := by
  simp [update, collidePhase_vx, integratePhase, gravityPhase, jumpPhase_vx, frictionPhase]

theorem update_x (inp : InputState) (dt : ℚ) (e : Entity) :
    (update inp dt e).x = e.x + (e.vx + controlAx inp * dt) * FRICTION * dt := by
  simp [update, collidePhase_x, integratePhase, gravityPhase, jumpPhase_x, jumpPhase_vx,
    frictionPhase]

theorem update_w (inp : InputState) (dt : ℚ) (e : Entity) : (update inp dt e).w = e.w := by
  simp [update, collidePhase_w, integratePhase, gravityPhase, jumpPhase_w, frictionPhase]

theorem update_h (inp : InputState) (dt : ℚ) (e : Entity) : (update inp dt e).h = e.h := by
  simp [update, collidePhase_h, integratePhase, gravityPhase, jumpPhase_h, frictionPhase]

theorem grounded_step (inp : InputState) (e : Entity)
    (hjp : justPressedAny inp jumpCodes = false)
    (hog : e.onGround = true) (hvy : e.vy = 0) (hy : e.y = GROUND_Y - e.h) :
    (update inp STEP e).onGround = true ∧ (update inp STEP e).vy = 0
    ∧ (update inp STEP e).y = GROUND_Y - (update inp STEP e).h := by
  obtain ⟨x, y, w, h, vx, vy, og⟩ := e
  simp only at hog hvy hy
  subst hog hvy hy
  have e2 : jumpPhase inp ⟨x, GROUND_Y - h, w, h, (vx + controlAx inp * STEP) * FRICTION, 0, true⟩
      = ⟨x, GROUND_Y - h, w, h, (vx + controlAx inp * STEP) * FRICTION, 0, true⟩ := by
    rw [jumpPhase, if_neg]
    rw [hjp]
    simp
  have e5 : collidePhase
      ⟨x + (vx + controlAx inp * STEP) * FRICTION * STEP,
        GROUND_Y - h + (0 + GRAVITY * STEP) * STEP, w, h,
        (vx + controlAx inp * STEP) * FRICTION, 0 + GRAVITY * STEP, true⟩
      = ⟨x + (vx + controlAx inp * STEP) * FRICTION * STEP,
          GROUND_Y - h, w, h, (vx + controlAx inp * STEP) * FRICTION, 0, true⟩ := by
    rw [collidePhase, if_pos (by norm_num [GRAVITY, STEP]; linarith)]
  unfold update
  rw [show frictionPhase inp STEP ⟨x, GROUND_Y - h, w, h, vx, 0, true⟩
      = ⟨x, GROUND_Y - h, w, h, (vx + controlAx inp * STEP) * FRICTION, 0, true⟩ from rfl,
    e2,
    show gravityPhase STEP ⟨x, GROUND_Y - h, w, h, (vx + controlAx inp * STEP) * FRICTION, 0, true⟩
      = ⟨x, GROUND_Y - h, w, h, (vx + controlAx inp * STEP) * FRICTION, 0 + GRAVITY * STEP, true⟩
      from rfl,
    show integratePhase STEP ⟨x, GROUND_Y - h, w, h, (vx + controlAx inp * STEP) * FRICTION,
        0 + GRAVITY * STEP, true⟩
      = ⟨x + (vx + controlAx inp * STEP) * FRICTION * STEP,
          GROUND_Y - h + (0 + GRAVITY * STEP) * STEP, w, h,
          (vx + controlAx inp * STEP) * FRICTION, 0 + GRAVITY * STEP, true⟩ from rfl,
    e5]
  exact ⟨rfl, rfl, rfl⟩

theorem collide_inv_of_airborne (p : Entity) (hp : p.onGround = false) :
    (collidePhase p).y + (collidePhase p).h ≤ GROUND_Y
    ∧ ((collidePhase p).onGround = true →
        (collidePhase p).y + (collidePhase p).h = GROUND_Y ∧ (collidePhase p).vy = 0) := by
  unfold collidePhase
  split
  · exact ⟨by simp, fun _ => ⟨by simp, rfl⟩⟩
  · rename_i hc
    refine ⟨not_lt.mp hc, fun ht => ?_⟩
    rw [hp] at ht
    simp at ht

theorem update_preserves_inv (inp : InputState) (e : Entity)
    (hle : e.y + e.h ≤ GROUND_Y)
    (hg : e.onGround = true → e.y + e.h = GROUND_Y ∧ e.vy = 0) :
    (update inp STEP e).y + (update inp STEP e).h ≤ GROUND_Y
    ∧ ((update inp STEP e).onGround = true →
        (update inp STEP e).y + (update inp STEP e).h = GROUND_Y
        ∧ (update inp STEP e).vy = 0) := by
  obtain ⟨x, y, w, h, vx, vy, og⟩ := e
  cases og with
  | false =>
    exact collide_inv_of_airborne _ rfl
  | true =>
    cases hjp : justPressedAny inp jumpCodes with
    | true =>
      have hcond : (Entity.onGround (frictionPhase inp STEP ⟨x, y, w, h, vx, vy, true⟩)
          && justPressedAny inp jumpCodes) = true := by
        rw [hjp]
        rfl
      have hpre : jumpPhase inp (frictionPhase inp STEP ⟨x, y, w, h, vx, vy, true⟩)
          = { frictionPhase inp STEP ⟨x, y, w, h, vx, vy, true⟩ with
              vy := -650, onGround := false } := by
        unfold jumpPhase
        rw [if_pos hcond]
      unfold update
      rw [hpre]
      exact collide_inv_of_airborne _ rfl
    | false =>
      have hog : Entity.onGround ⟨x, y, w, h, vx, vy, true⟩ = true := rfl
      obtain ⟨hyh, hvy⟩ := hg hog
      have hy : Entity.y ⟨x, y, w, h, vx, vy, true⟩
          = GROUND_Y - Entity.h ⟨x, y, w, h, vx, vy, true⟩ := by
        simp only at hyh ⊢
        linarith
      have hstep := grounded_step inp ⟨x, y, w, h, vx, vy, true⟩ hjp hog hvy hy
      refine ⟨?_, fun _ => ⟨?_, hstep.2.1⟩⟩
      · rw [hstep.2.2]
        simp
      · rw [hstep.2.2]
        simp

theorem runSteps_preserves_inv : ∀ (l : List InputState) (e : Entity),
    e.y + e.h ≤ GROUND_Y → (e.onGround = true → e.y + e.h = GROUND_Y ∧ e.vy = 0) →
    (runSteps l e).y + (runSteps l e).h ≤ GROUND_Y
    ∧ ((runSteps l e).onGround = true →
        (runSteps l e).y + (runSteps l e).h = GROUND_Y ∧ (runSteps l e).vy = 0) := by
  intro l
  induction l with
  | nil => intro e h1 h2; exact ⟨h1, h2⟩
  | cons i t ih =>
    intro e h1 h2
    have h := update_preserves_inv i e h1 h2
    exact ih (update i STEP e) h.1 h.2

/-! ### Claim theorems -/

/-- Claim C1 (amended): the Physics Step's ground collision resolution
(`collidePhase`, the final phase of `update`) clamps `y` to `GROUND_Y - h`,
zeroes `vy` and sets `onGround := true` exactly when `y + h > GROUND_Y`;
otherwise it leaves the entity unchanged — the source `if` has no else branch,
so `onGround` keeps its previous value instead of being set to `false`. -/
theorem claim_C1 (e : Entity) :
    (GROUND_Y < e.y + e.h →
      collidePhase e = { e with y := GROUND_Y - e.h, vy := 0, onGround := true })
    ∧ (e.y + e.h ≤ GROUND_Y → collidePhase e = e) := by
  constructor
  · intro hgt
    rw [collidePhase, if_pos hgt]
  · intro hle
    rw [collidePhase, if_neg (not_lt.mpr hle)]

/-- Counterexample to C1 as stated: a non-penetrating entity
(`y + h = 132 ≤ 400`) that is already grounded keeps `onGround = true` after
the collision resolution, whereas the claim's else-case would set it to
`false`. -/
theorem claim_C1_counterexample :
    (100 : ℚ) + 32 ≤ GROUND_Y
    ∧ (collidePhase
        { x := 0, y := 100, w := 32, h := 32, vx := 7, vy := 5, onGround := true }).onGround
      = true := by
  refine ⟨by norm_num [GROUND_Y], ?_⟩
  rw [collidePhase, if_neg (by norm_num [GROUND_Y])]

/-- Witness for C1: an entity at `y = 390` with `h = 32` penetrates the ground
line `400` and is clamped; an entity at `y = 100` does not and is returned
unchanged. -/
theorem claim_C1_witness :
    (GROUND_Y < (390 : ℚ) + 32 ∧
      collidePhase { x := 0, y := 390, w := 32, h := 32, vx := 7, vy := 5, onGround := false } =
        { x := 0, y := GROUND_Y - 32, w := 32, h := 32, vx := 7, vy := 0, onGround := true })
    ∧ ((100 : ℚ) + 32 ≤ GROUND_Y ∧
      collidePhase { x := 0, y := 100, w := 32, h := 32, vx := 7, vy := 5, onGround := true } =
        { x := 0, y := 100, w := 32, h := 32, vx := 7, vy := 5, onGround := true }) := by
  have h1 : GROUND_Y < (390 : ℚ) + 32 := by norm_num [GROUND_Y]
  have h2 : (100 : ℚ) + 32 ≤ GROUND_Y := by norm_num [GROUND_Y]
  exact ⟨⟨h1, (claim_C1 _).1 h1⟩, ⟨h2, (claim_C1 _).2 h2⟩⟩

/-- Claim C4: after any sequence of key events from the empty initial input
state, a down-event on `c` inserts `c` into the pressed set exactly when `c`
was not held immediately before, never re-inserts while held, and always puts
`c` into the held set. -/
theorem claim_C4 (l : List KeyEvent) (c : KeyCode) :
    (c ∉ (applyEvents input0 l).down →
      (applyEvent (applyEvents input0 l) (KeyEvent.keydown c)).pressed
        = insert c (applyEvents input0 l).pressed)
    ∧ (c ∈ (applyEvents input0 l).down →
      (applyEvent (applyEvents input0 l) (KeyEvent.keydown c)).pressed
        = (applyEvents input0 l).pressed)
    ∧ (applyEvent (applyEvents input0 l) (KeyEvent.keydown c)).down
        = insert c (applyEvents input0 l).down := by
  refine ⟨fun h => ?_, fun h => ?_, rfl⟩
  · simp [applyEvent, onKeyDown, h]
  · simp [applyEvent, onKeyDown, h]

/-- Witness for C4: pressing `Space` from the empty state inserts it into
`pressed`; a second down-event on an already-held `KeyA` leaves `pressed`
unchanged. -/
theorem claim_C4_witness :
    ("Space" ∉ (applyEvents input0 []).down ∧
      (applyEvent (applyEvents input0 []) (KeyEvent.keydown "Space")).pressed
        = insert "Space" (applyEvents input0 []).pressed)
    ∧ ("KeyA" ∈ (applyEvents input0 [KeyEvent.keydown "KeyA"]).down ∧
      (applyEvent (applyEvents input0 [KeyEvent.keydown "KeyA"]) (KeyEvent.keydown "KeyA")).pressed
        = (applyEvents input0 [KeyEvent.keydown "KeyA"]).pressed) := by
  have h1 : "Space" ∉ (applyEvents input0 []).down := by decide
  have h2 : "KeyA" ∈ (applyEvents input0 [KeyEvent.keydown "KeyA"]).down := by decide
  exact ⟨⟨h1, (claim_C4 [] "Space").1 h1⟩, ⟨h2, (claim_C4 [KeyEvent.keydown "KeyA"] "KeyA").2.1 h2⟩⟩

/-- Claim C2: after every Physics Step of any step sequence started from the
initial player state, the entity never sinks below the ground line
(`y + h ≤ GROUND_Y`), and whenever it is grounded its lower edge rests exactly
on the line with no fall speed. -/
theorem claim_C2 (l : List InputState) (_hne : l ≠ []) :
    (runSteps l player0).y + (runSteps l player0).h ≤ GROUND_Y
    ∧ ((runSteps l player0).onGround = true →
        (runSteps l player0).y + (runSteps l player0).h = GROUND_Y
        ∧ (runSteps l player0).vy = 0) :=
  runSteps_preserves_inv l player0 (by norm_num [player0, GROUND_Y])
    (fun ht => by simp [player0] at ht)

/-- Witness for C2: one physics step with empty input from the initial player. -/
theorem claim_C2_witness :
    ([input0] : List InputState) ≠ []
    ∧ ((runSteps [input0] player0).y + (runSteps [input0] player0).h ≤ GROUND_Y
      ∧ ((runSteps [input0] player0).onGround = true →
          (runSteps [input0] player0).y + (runSteps [input0] player0).h = GROUND_Y
          ∧ (runSteps [input0] player0).vy = 0)) :=
  ⟨List.cons_ne_nil _ _, claim_C2 [input0] (List.cons_ne_nil _ _)⟩

/-- Claim C3: a grounded entity (`onGround`, `vy = 0`, `y = GROUND_Y - h`)
stays grounded at the ground line with zero fall speed after every step of any
step sequence in which no jump code is just-pressed: gravity is applied each
step but nullified by the collision clamp. -/
theorem claim_C3 : ∀ (l : List InputState) (e : Entity),
    (∀ i ∈ l, justPressedAny i jumpCodes = false) →
    e.onGround = true → e.vy = 0 → e.y = GROUND_Y - e.h →
    (runSteps l e).onGround = true ∧ (runSteps l e).vy = 0
      ∧ (runSteps l e).y = GROUND_Y - (runSteps l e).h := by
  intro l
  induction l with
  | nil => intro e _ hog hvy hy; exact ⟨hog, hvy, hy⟩
  | cons i t ih =>
    intro e hall hog hvy hy
    have hstep := grounded_step i e (hall i (by simp)) hog hvy hy
    exact ih (update i STEP e) (fun j hj => hall j (by simp [hj])) hstep.1 hstep.2.1 hstep.2.2

/-- Witness for C3: one step with empty input from a grounded entity. -/
theorem claim_C3_witness :
    (∀ i ∈ ([input0] : List InputState), justPressedAny i jumpCodes = false)
    ∧ Entity.onGround { x := 100, y := 368, w := 32, h := 32, vx := 0, vy := 0, onGround := true } = true
    ∧ Entity.vy { x := 100, y := 368, w := 32, h := 32, vx := 0, vy := 0, onGround := true } = 0
    ∧ Entity.y { x := 100, y := 368, w := 32, h := 32, vx := 0, vy := 0, onGround := true }
        = GROUND_Y - Entity.h { x := 100, y := 368, w := 32, h := 32, vx := 0, vy := 0, onGround := true }
    ∧ ((runSteps [input0] { x := 100, y := 368, w := 32, h := 32, vx := 0, vy := 0, onGround := true }).onGround = true
      ∧ (runSteps [input0] { x := 100, y := 368, w := 32, h := 32, vx := 0, vy := 0, onGround := true }).vy = 0
      ∧ (runSteps [input0] { x := 100, y := 368, w := 32, h := 32, vx := 0, vy := 0, onGround := true }).y
          = GROUND_Y - (runSteps [input0] { x := 100, y := 368, w := 32, h := 32, vx := 0, vy := 0, onGround := true }).h) := by
  have hall : ∀ i ∈ ([input0] : List InputState), justPressedAny i jumpCodes = false := by decide
  have hy : Entity.y { x := 100, y := 368, w := 32, h := 32, vx := 0, vy := 0, onGround := true }
      = GROUND_Y - Entity.h { x := (100:ℚ), y := 368, w := 32, h := 32, vx := 0, vy := 0, onGround := true } := by
    norm_num [GROUND_Y]
  exact ⟨hall, rfl, rfl, hy, claim_C3 [input0] _ hall rfl rfl hy⟩

/-- Claim C5: `update` runs the jump check (`jumpPhase`) strictly before the
gravity phase; the jump check launches (sets `vy := -650`, `onGround := false`)
exactly when the entity is grounded and a jump code is just-pressed, and a jump
code that is merely held but not just-pressed never causes a relaunch. -/
theorem claim_C5 (inp : InputState) (dt : ℚ) (e : Entity) :
    update inp dt e
        = collidePhase (integratePhase dt (gravityPhase dt (jumpPhase inp (frictionPhase inp dt e))))
    ∧ (∀ e' : Entity, e'.onGround = true → justPressedAny inp jumpCodes = true →
        jumpPhase inp e' = { e' with vy := -650, onGround := false })
    ∧ (∀ e' : Entity, e'.onGround = false ∨ justPressedAny inp jumpCodes = false →
        jumpPhase inp e' = e')
    ∧ (heldAny inp jumpCodes = true → justPressedAny inp jumpCodes = false →
        ∀ e' : Entity, jumpPhase inp e' = e') := by
  refine ⟨rfl, fun e' hg hj => ?_, fun e' hcase => ?_, fun _ hj e' => ?_⟩
  · rw [jumpPhase, if_pos (by rw [hg, hj]; rfl)]
  · rcases hcase with hg | hj
    · rw [jumpPhase, if_neg (by rw [hg]; simp)]
    · rw [jumpPhase, if_neg (by rw [hj]; simp)]
  · rw [jumpPhase, if_neg (by rw [hj]; simp)]

/-- Witness for C5: with `Space` just pressed a grounded entity launches; with
`Space` merely held (not just-pressed) the jump phase is the identity. -/
theorem claim_C5_witness :
    (Entity.onGround { x := 0, y := 368, w := 32, h := 32, vx := 0, vy := 0, onGround := true } = true
      ∧ justPressedAny ⟨{"Space"}, {"Space"}⟩ jumpCodes = true
      ∧ jumpPhase ⟨{"Space"}, {"Space"}⟩
          { x := 0, y := 368, w := 32, h := 32, vx := 0, vy := 0, onGround := true }
        = { x := 0, y := 368, w := 32, h := 32, vx := 0, vy := -650, onGround := false })
    ∧ (heldAny ⟨{"Space"}, ∅⟩ jumpCodes = true
      ∧ justPressedAny ⟨{"Space"}, ∅⟩ jumpCodes = false
      ∧ jumpPhase ⟨{"Space"}, ∅⟩
          { x := 0, y := 368, w := 32, h := 32, vx := 0, vy := 0, onGround := true }
        = { x := 0, y := 368, w := 32, h := 32, vx := 0, vy := 0, onGround := true }) := by
  have hg : Entity.onGround { x := 0, y := 368, w := 32, h := 32, vx := 0, vy := 0, onGround := true } = true := rfl
  have hj : justPressedAny ⟨{"Space"}, {"Space"}⟩ jumpCodes = true := by decide
  have hh : heldAny ⟨{"Space"}, ∅⟩ jumpCodes = true := by decide
  have hn : justPressedAny ⟨{"Space"}, ∅⟩ jumpCodes = false := by decide
  exact ⟨⟨hg, hj, (claim_C5 ⟨{"Space"}, {"Space"}⟩ STEP player0).2.1 _ hg hj⟩,
    ⟨hh, hn, (claim_C5 ⟨{"Space"}, ∅⟩ STEP player0).2.2.2 hh hn _⟩⟩

theorem clampDt_nonneg {dt : ℚ} (h : 0 ≤ dt) : 0 ≤ clampDt dt := by
  unfold clampDt
  split
  · norm_num
  · exact h

theorem drain_fst_bounds : ∀ (m : ℕ) (acc : ℚ) (s : GameState) (n : ℕ),
    0 ≤ acc → acc < STEP * (m + 1) →
    0 ≤ (drain acc s n).1 ∧ (drain acc s n).1 < STEP := by
  intro m
  induction m with
  | zero =>
    intro acc s n h0 h1
    rw [drain_of_lt s n (by rw [STEP] at h1 ⊢; linarith)]
    exact ⟨h0, by rw [STEP] at h1 ⊢; linarith⟩
  | succ k ih =>
    intro acc s n h0 h1
    by_cases hc : STEP ≤ acc
    · rw [drain_of_ge s n hc]
      refine ih _ _ _ (by linarith) ?_
      have : (((k : ℚ) + 1) + 1) = ((k : ℚ) + 2) := by ring
      push_cast at h1 ⊢
      linarith
    · rw [drain_of_lt s n (not_le.mp hc)]
      exact ⟨h0, not_le.mp hc⟩

/-- Claim C6: after the scheduler's drain loop finishes, the accumulator is
nonnegative and strictly below the step size, whatever nonnegative elapsed
time is fed into the tick. -/
theorem claim_C6 (dt acc : ℚ) (s : GameState) (hdt : 0 ≤ dt) (hacc : 0 ≤ acc) :
    0 ≤ (tick dt acc s).1 ∧ (tick dt acc s).1 < STEP := by
  have h0 : 0 ≤ acc + clampDt dt := by
    have := clampDt_nonneg hdt
    linarith
  obtain ⟨m, hm⟩ := exists_nat_gt ((acc + clampDt dt) / STEP)
  have hstep : (0 : ℚ) < STEP := by rw [STEP]; norm_num
  have hlt : acc + clampDt dt < STEP * (m + 1) := by
    have h1 : acc + clampDt dt < STEP * m := by
      rw [mul_comm]
      exact (div_lt_iff₀ hstep).mp hm
    nlinarith
  exact drain_fst_bounds m (acc + clampDt dt) s 0 h0 hlt

/-- Witness for C6: a tick of half a second from an empty accumulator. -/
theorem claim_C6_witness :
    (0 : ℚ) ≤ 1 / 2 ∧ (0 : ℚ) ≤ 0
    ∧ (0 ≤ (tick (1 / 2) 0 s0).1 ∧ (tick (1 / 2) 0 s0).1 < STEP) :=
  ⟨by norm_num, le_refl 0, claim_C6 (1 / 2) 0 s0 (by norm_num) (le_refl 0)⟩

/-- Claim C7: an elapsed time at or beyond the 0.25 s clamp maximum yields
exactly the same number of physics steps as an elapsed time of exactly 0.25 s. -/
theorem claim_C7 (dt acc : ℚ) (s : GameState) (hdt : 1 / 4 ≤ dt) :
    (tick dt acc s).2.2 = (tick (1 / 4) acc s).2.2 := by
  have hclamp : clampDt dt = clampDt (1 / 4) := by
    unfold clampDt
    have h14 : ¬((1 : ℚ) / 4 > 1 / 4) := by norm_num
    by_cases hgt : dt > 1 / 4
    · rw [if_pos hgt, if_neg h14]
    · rw [if_neg hgt, if_neg h14]
      exact le_antisymm (not_lt.mp hgt) hdt
  unfold tick
  rw [hclamp]

/-- Witness for C7: a stall of ten clamp maxima (2.5 s) runs the same number of
steps as one of exactly 0.25 s. -/
theorem claim_C7_witness :
    (1 : ℚ) / 4 ≤ 10 * (1 / 4)
    ∧ (tick (10 * (1 / 4)) 0 s0).2.2 = (tick (1 / 4) 0 s0).2.2 :=
  ⟨by norm_num, claim_C7 (10 * (1 / 4)) 0 s0 (by norm_num)⟩

/-- Claim C8: a tick of exactly `3 * STEP` elapsed time from an empty
accumulator (no clamp) runs exactly 3 physics steps and leaves the accumulator
at exactly 0. -/
theorem claim_C8 (s : GameState) :
    (tick (3 * STEP) 0 s).1 = 0 ∧ (tick (3 * STEP) 0 s).2.2 = 3 := by
  have hclamp : clampDt (3 * STEP) = 3 * STEP := by
    rw [clampDt, if_neg (by norm_num [STEP])]
  have hchain : tick (3 * STEP) 0 s = drain (3 * STEP) s 0 := by
    rw [tick, hclamp, zero_add]
  rw [hchain, drain_of_ge _ _ (by norm_num [STEP]),
    show (3 * STEP - STEP) = 2 * STEP by ring,
    drain_of_ge _ _ (by norm_num [STEP]),
    show (2 * STEP - STEP) = STEP by ring,
    drain_of_ge _ _ (le_refl STEP),
    show (STEP - STEP : ℚ) = 0 by ring,
    drain_of_lt _ _ (by norm_num [STEP])]
  exact ⟨rfl, rfl⟩

theorem controlAx_rightInput : controlAx rightInput = MOVE_ACCEL := by
  have hL : heldAny rightInput ["ArrowLeft", "KeyA"] = false := by decide
  have hR : heldAny rightInput ["ArrowRight", "KeyD"] = true := by decide
  simp [controlAx, hL, hR]

theorem runRight_succ (k : ℕ) : runRight (k + 1) = update rightInput STEP (runRight k) := rfl

theorem runRight_vx_nonneg : ∀ k : ℕ, 0 ≤ (runRight k).vx := by
  intro k
  induction k with
  | zero => norm_num [runRight]
  | succ m ih =>
    rw [runRight_succ, update_vx, controlAx_rightInput]
    rw [MOVE_ACCEL, STEP, FRICTION]
    nlinarith

/-- Claim C9: each step sets the new horizontal velocity to
`(vx + ax*dt) * FRICTION` (acceleration first, friction on the updated
velocity); the steady state of the move-right recurrence is
`MOVE_ACCEL*STEP*FRICTION/(1-FRICTION)`; and in the §8 scenario (start at rest
on the ground, hold move-right) `x` strictly increases on each of 60 steps. -/
theorem claim_C9 :
    (∀ (inp : InputState) (dt : ℚ) (e : Entity),
      (update inp dt e).vx = (e.vx + controlAx inp * dt) * FRICTION)
    ∧ (∀ e : Entity, e.vx = MOVE_ACCEL * STEP * FRICTION / (1 - FRICTION) →
        (update rightInput STEP e).vx = e.vx)
    ∧ (∀ k : ℕ, k < 60 → (runRight k).x < (runRight (k + 1)).x) := by
  refine ⟨update_vx, fun e hvx => ?_, fun k _ => ?_⟩
  · rw [update_vx, controlAx_rightInput, hvx]
    rw [MOVE_ACCEL, STEP, FRICTION]
    norm_num
  · rw [runRight_succ, update_x, controlAx_rightInput]
    have h0 := runRight_vx_nonneg k
    have hpos : 0 < ((runRight k).vx + MOVE_ACCEL * STEP) * FRICTION * STEP := by
      rw [MOVE_ACCEL, STEP, FRICTION]
      nlinarith
    linarith

/-- Witness for C9: the velocity recurrence at the initial player under empty
input, the steady state `vx = 180`, and the first scenario step. -/
theorem claim_C9_witness :
    ((update input0 STEP player0).vx = (player0.vx + controlAx input0 * STEP) * FRICTION)
    ∧ (Entity.vx { x := 0, y := 0, w := 32, h := 32, vx := 180, vy := 0, onGround := true }
          = MOVE_ACCEL * STEP * FRICTION / (1 - FRICTION)
      ∧ (update rightInput STEP
            { x := 0, y := 0, w := 32, h := 32, vx := 180, vy := 0, onGround := true }).vx
          = Entity.vx { x := 0, y := 0, w := 32, h := 32, vx := 180, vy := 0, onGround := true })
    ∧ (0 < 60 ∧ (runRight 0).x < (runRight 1).x) := by
  have hvx : Entity.vx { x := 0, y := 0, w := 32, h := 32, vx := 180, vy := 0, onGround := true }
      = MOVE_ACCEL * STEP * FRICTION / (1 - FRICTION) := by
    show (180 : ℚ) = MOVE_ACCEL * STEP * FRICTION / (1 - FRICTION)
    rw [MOVE_ACCEL, STEP, FRICTION]
    norm_num
  exact ⟨claim_C9.1 input0 STEP player0, ⟨hvx, claim_C9.2.1 _ hvx⟩,
    ⟨by decide, claim_C9.2.2 0 (by decide)⟩⟩

/-- Claim C10: a physics step mutates only the entity's `x`, `y`, `vx`, `vy`
and `onGround`: the size fields `w` and `h` and both input sets are unchanged,
and the just-pressed consumption (`consume`) happens in the scheduler's drain
loop only after the step returns. -/
theorem claim_C10 (dt : ℚ) (s : GameState) :
    (stepWorld dt s).input = s.input
    ∧ (stepWorld dt s).player.w = s.player.w
    ∧ (stepWorld dt s).player.h = s.player.h
    ∧ (∀ (acc : ℚ) (n : ℕ), STEP ≤ acc →
        drain acc s n = drain (acc - STEP) (consume (stepWorld STEP s)) (n + 1)) :=
  ⟨rfl, update_w s.input dt s.player, update_h s.input dt s.player,
    fun _ n h => drain_of_ge s n h⟩

/-- Witness for C10: one drain iteration from an accumulator of exactly one
step. -/
theorem claim_C10_witness :
    (stepWorld STEP s0).input = s0.input
    ∧ (stepWorld STEP s0).player.w = s0.player.w
    ∧ (stepWorld STEP s0).player.h = s0.player.h
    ∧ (STEP ≤ STEP
      ∧ drain STEP s0 0 = drain (STEP - STEP) (consume (stepWorld STEP s0)) (0 + 1)) :=
  ⟨(claim_C10 STEP s0).1, (claim_C10 STEP s0).2.1, (claim_C10 STEP s0).2.2.1,
    le_refl STEP, (claim_C10 STEP s0).2.2.2 STEP 0 (le_refl STEP)⟩

end Game
